import Mathlib

/-!
# Verification of the infinite-canvas spatial streaming engine

Shallow embedding of `src/infinite-canvas/scene.tsx` (the scene module of
Beenyaa/infinite-canvas).  JavaScript numbers are modelled as real numbers,
32-bit integer operations (`<< 5`, `| 0`) as explicit wrapping on `ℤ`,
JS `Map` objects as association lists, and the mutable per-frame state of the
scene controller as explicit state records transformed by pure step functions.
-/

namespace InfiniteCanvas

/-! ## Data model and integer constants (scene.tsx lines 6-39) -/

/-- `MediaItem.type` in scene.tsx: `"image" | "video"`. -/
inductive MediaType where
  | image
  | video
  deriving DecidableEq, Repr

/-- `MediaItem` (scene.tsx lines 6-9). -/
structure MediaItem where
  url : String
  type : MediaType
  deriving DecidableEq, Repr

def ITEMS_PER_CHUNK : ℕ := 5

def RENDER_DISTANCE : ℤ := 2

def CHUNK_FADE_MARGIN : ℤ := 1

/-- `MAX_DIST = RENDER_DISTANCE + CHUNK_FADE_MARGIN` (scene.tsx line 39). -/
def MAX_DIST : ℤ := RENDER_DISTANCE + CHUNK_FADE_MARGIN

/-! ## String hashing (scene.tsx lines 58-66)

`hashString` folds `h = ((h << 5) - h + str.charCodeAt(i)) | 0` over the
string and returns `Math.abs(h)`.  In JavaScript `<< 5` and `| 0` operate on
wrapped signed 32-bit integers; `toInt32` is that wrapping on `ℤ`. -/

/-- Signed 32-bit wrap, the effect of JavaScript `| 0` (ToInt32). -/
def toInt32 (x : ℤ) : ℤ := (x + 2 ^ 31) % 2 ^ 32 - 2 ^ 31

/-- One iteration of the `hashString` loop body
`h = ((h << 5) - h + str.charCodeAt(i)) | 0` (scene.tsx line 62);
`h << 5` is `h * 32` wrapped to int32. -/
def hashStep (h : ℤ) (c : Char) : ℤ := toInt32 (toInt32 (h * 32) - h + (c.toNat : ℤ))

/-- `hashString` (scene.tsx lines 58-66): fold the step over the UTF-16 code
units (all characters used here are ASCII, where code unit = code point),
then `Math.abs`. -/
def hashString (str : String) : ℤ := ((str.data.foldl hashStep 0).natAbs : ℤ)

/-- The template literal `` `${cx},${cy},${cz}` `` used both as the
`generateChunkPlanes` seed string (line 136) and as chunk keys
(lines 521, 551). -/
def coordKey (cx cy cz : ℤ) : String :=
  toString cx ++ "," ++ toString cy ++ "," ++ toString cz

/-- The plane id template literal `` `${cx}-${cy}-${cz}-${i}` `` (line 145). -/
def planeId (cx cy cz : ℤ) (i : ℕ) : String :=
  toString cx ++ "-" ++ toString cy ++ "-" ++ toString cz ++ "-" ++ toString i

/-! ## Real-valued part of the model -/

noncomputable section

/-- `CHUNK_SIZE` (scene.tsx line 31). -/
def CHUNK_SIZE : ℝ := 110

/-- `MAX_VELOCITY` (scene.tsx line 35). -/
def MAX_VELOCITY : ℝ := 3.2

/-- `VISIBILITY_LERP` (scene.tsx line 36). -/
def VISIBILITY_LERP : ℝ := 0.18

/-- `DEPTH_FADE_START` (scene.tsx line 37). -/
def DEPTH_FADE_START : ℝ := 140

/-- `DEPTH_FADE_END` (scene.tsx line 38). -/
def DEPTH_FADE_END : ℝ := 260

/-- `seededRandom` (scene.tsx lines 53-56):
`x = Math.sin(seed * 9999) * 10000; return x - Math.floor(x)`. -/
def seededRandom (seed : ℝ) : ℝ :=
  let x := Real.sin (seed * 9999) * 10000
  x - ⌊x⌋

/-- `clamp` (scene.tsx line 68): `Math.max(min, Math.min(max, v))`. -/
def clamp (v lo hi : ℝ) : ℝ := max lo (min hi v)

/-- `lerp` (scene.tsx line 70): `a + (b - a) * t`. -/
def lerp (a b t : ℝ) : ℝ := a + (b - a) * t

/-- `THREE.Vector3`, as used for positions, scales and velocities. -/
structure Vec3 where
  x : ℝ
  y : ℝ
  z : ℝ

/-- `PlaneData` (scene.tsx lines 23-28). -/
structure PlaneData where
  id : String
  position : Vec3
  scale : Vec3
  mediaIndex : ℤ

/-- `generateChunkPlanes` (scene.tsx lines 134-157).  The loop
`for (let i = 0; i < ITEMS_PER_CHUNK; i++)` is `(List.range 5).map`;
`mediaIndex = Math.floor(r(5) * mediaCount)` is an integer floor. -/
def generateChunkPlanes (cx cy cz : ℤ) (mediaCount : ℕ) : List PlaneData :=
  let seed : ℤ := hashString (coordKey cx cy cz)
  (List.range ITEMS_PER_CHUNK).map (fun (i : ℕ) =>
    let s : ℝ := (seed : ℝ) + (i : ℝ) * 1000
    let r : ℝ → ℝ := fun n => seededRandom (s + n)
    let size := 12 + r 4 * 8
    { id := planeId cx cy cz i
      position := ⟨(cx : ℝ) * CHUNK_SIZE + r 0 * CHUNK_SIZE,
                   (cy : ℝ) * CHUNK_SIZE + r 1 * CHUNK_SIZE,
                   (cz : ℝ) * CHUNK_SIZE + r 2 * CHUNK_SIZE⟩
      scale := ⟨size, size, 1⟩
      mediaIndex := ⌊r 5 * (mediaCount : ℝ)⌋ })

/-! ### Basic range facts about the seeded PRNG -/

end

/-- `THREE` texture filters used by `getTexture`. -/
inductive TexFilter where
  | linearFilter
  | linearMipmapLinearFilter
  deriving DecidableEq, Repr

/-- The observable configuration of a `THREE.Texture` made by `getTexture`,
with `id` as object identity. -/
structure Texture where
  id : ℕ
  isVideoTexture : Bool
  minFilter : TexFilter
  magFilter : TexFilter
  generateMipmaps : Bool
  anisotropy : ℕ
  deriving DecidableEq, Repr

/-- The video element built in the video branch (scene.tsx lines 104-114). -/
structure VideoElement where
  id : ℕ
  src : String
  loop : Bool
  muted : Bool
  playsInline : Bool
  autoplay : Bool
  deriving DecidableEq, Repr

/-- JavaScript `Map.get`: the most recent `set` binding wins (`mapSet`
prepends, so `find?` returns it). -/
def mapGet {α : Type} (m : List (String × α)) (k : String) : Option α :=
  (m.find? (fun p => p.1 == k)).map Prod.snd

/-- JavaScript `Map.set`. -/
def mapSet {α : Type} (m : List (String × α)) (k : String) (v : α) : List (String × α) :=
  (k, v) :: m

/-- The two module-level caches plus the load log and an identity counter. -/
structure CacheState where
  textureCache : List (String × Texture)
  videoElements : List (String × VideoElement)
  loads : List String
  fresh : ℕ
  deriving DecidableEq, Repr

/-- The state at module initialisation: both maps empty (scene.tsx
lines 91-92). -/
def initialCacheState : CacheState := ⟨[], [], [], 0⟩

/-- `getTexture` (scene.tsx lines 94-131). -/
def getTexture (item : MediaItem) (s : CacheState) : Texture × CacheState :=
  match mapGet s.textureCache item.url with
  | some cachedTexture => (cachedTexture, s)
  | none =>
    match item.type with
    | MediaType.video =>
      match mapGet s.videoElements item.url with
      | some _ =>
        let texture : Texture :=
          ⟨s.fresh, true, TexFilter.linearFilter, TexFilter.linearFilter, false, 1⟩
        (texture, { s with
            textureCache := mapSet s.textureCache item.url texture,
            fresh := s.fresh + 1 })
      | none =>
        let video : VideoElement := ⟨s.fresh, item.url, true, true, true, true⟩
        let texture : Texture :=
          ⟨s.fresh + 1, true, TexFilter.linearFilter, TexFilter.linearFilter, false, 1⟩
        (texture, { s with
            videoElements := mapSet s.videoElements item.url video,
            textureCache := mapSet s.textureCache item.url texture,
            loads := s.loads ++ [item.url],
            fresh := s.fresh + 2 })
    | MediaType.image =>
      let texture : Texture :=
        ⟨s.fresh, false, TexFilter.linearMipmapLinearFilter, TexFilter.linearFilter, true, 4⟩
      (texture, { s with
          textureCache := mapSet s.textureCache item.url texture,
          loads := s.loads ++ [item.url],
          fresh := s.fresh + 1 })

/-- A sequence of `getTexture` calls, returning the final cache state. -/
def runGetTextures (items : List MediaItem) (s : CacheState) : CacheState :=
  items.foldl (fun s item => (getTexture item s).2) s

/-- Invariant tying the load log to the texture cache: every URL is loaded
at most once, and a loaded URL is cached. -/
def CacheInv (s : CacheState) : Prop :=
  ∀ url : String, s.loads.count url ≤ 1 ∧
    (url ∈ s.loads → (mapGet s.textureCache url).isSome)

noncomputable section

/-- The DOM media element behind a texture (`texture.image`): either an
`HTMLImageElement` (with `naturalWidth`/`naturalHeight` and the
`width`/`height` fallbacks) or an `HTMLVideoElement` (with
`videoWidth`/`videoHeight`). -/
inductive MediaEl where
  | imageEl (naturalWidth naturalHeight width height : ℝ)
  | videoEl (videoWidth videoHeight : ℝ)

/-- `getMediaDimensions` (scene.tsx lines 72-88): videos report
`videoWidth`/`videoHeight`; images report `naturalWidth || width` and
`naturalHeight || height` (JS `||` falls back when the left operand is `0`);
a missing element reports `undefined` on both axes. -/
def getMediaDimensions : Option MediaEl → Option ℝ × Option ℝ
  | none => (none, none)
  | some (MediaEl.videoEl vw vh) => (some vw, some vh)
  | some (MediaEl.imageEl nw nh w h) =>
      (some (if nw = 0 then w else nw), some (if nh = 0 then h else nh))

/-- The `displayScale` memo of `MediaPlane` (scene.tsx lines 177-191).
The outer `Option` is the component's `texture` state (`null` before a
texture is set); the inner `Option MediaEl` is `texture.image`, which stays
`undefined` until the loader attaches a media element.
`if (!naturalWidth || !naturalHeight) return scale` covers both a missing
dimension and a zero one; `aspect = naturalWidth / naturalHeight || 1`
falls back to `1` when the quotient is `0` (or NaN in JS). -/
def displayScale (texture : Option (Option MediaEl)) (scale : Vec3) : Vec3 :=
  match texture with
  | none => scale
  | some image =>
    match getMediaDimensions image with
    | (some naturalWidth, some naturalHeight) =>
      if naturalWidth = 0 ∨ naturalHeight = 0 then scale
      else
        let aspect := if naturalWidth / naturalHeight = 0 then 1
                      else naturalWidth / naturalHeight
        ⟨scale.y * aspect, scale.y, 1⟩
    | _ => scale

end

/-- An entry of `CHUNK_OFFSETS`. -/
structure ChunkOffset where
  dx : ℤ
  dy : ℤ
  dz : ℤ
  dist : ℤ
  deriving DecidableEq, Repr

/-- `Math.max(Math.abs(dx), Math.abs(dy), Math.abs(dz))` (scene.tsx
line 45), the Chebyshev distance of the offset. -/
def chebDist (dx dy dz : ℤ) : ℤ := max (max |dx| |dy|) |dz|

/-- The loop range `-MAX_DIST .. MAX_DIST` of each of the three nested
`for` loops (scene.tsx lines 42-44). -/
def offsetRange : List ℤ :=
  (List.range (2 * MAX_DIST.toNat + 1)).map (fun (i : ℕ) => (i : ℤ) - MAX_DIST)

/-- `CHUNK_OFFSETS` (scene.tsx lines 40-50): the triple loop with the
`if (dist > MAX_DIST) continue` guard (which never fires for these loop
bounds, but is kept faithful to the source). -/
def CHUNK_OFFSETS : List ChunkOffset :=
  offsetRange.flatMap (fun dx =>
    offsetRange.flatMap (fun dy =>
      offsetRange.filterMap (fun dz =>
        let dist := chebDist dx dy dz
        if dist > MAX_DIST then none else some ⟨dx, dy, dz, dist⟩)))

noncomputable section

/-- `ChunkData` (scene.tsx lines 15-21). -/
structure ChunkData where
  key : String
  cx : ℤ
  cy : ℤ
  cz : ℤ
  visibility : ℝ

/-- `prevMap` lookup (scene.tsx lines 528-531, 552): the map is rebuilt by
`prev.forEach((c) => prevMap.set(c.key, c))`, so for duplicate keys the last
entry wins — hence a left fold. -/
def prevLookup (prev : List ChunkData) (key : String) : Option ChunkData :=
  prev.foldl (fun acc c => if c.key = key then some c else acc) none

/-- `prevChunk?.visibility ?? 0` (scene.tsx line 553): the previous frame's
eased visibility, `0` for a newly entered chunk. -/
def prevVisibility (prev : List ChunkData) (key : String) : ℝ :=
  (prevLookup prev key).elim 0 ChunkData.visibility

/-- `gridTarget` (scene.tsx lines 536-539): `1` within `RENDER_DISTANCE`,
linear ramp to `0` across the fade margin. -/
def gridTarget (dist : ℤ) : ℝ :=
  if dist ≤ RENDER_DISTANCE then 1
  else max 0 (1 - ((dist : ℝ) - (RENDER_DISTANCE : ℝ)) /
    max ((CHUNK_FADE_MARGIN : ℤ) : ℝ) 0.0001)

/-- `depthLinear` (scene.tsx lines 543-546) as a function of
`absDepth = Math.abs(chunkCenterZ - camera.position.z)`. -/
def depthLinearOf (absDepth : ℝ) : ℝ :=
  if absDepth ≤ DEPTH_FADE_START then 1
  else max 0 (1 - (absDepth - DEPTH_FADE_START) / max (DEPTH_FADE_END - DEPTH_FADE_START) 0.0001)

/-- `depthTarget = depthLinear * depthLinear` (scene.tsx lines 541-547):
`1` within `DEPTH_FADE_START` of the camera's z, squared linear ramp to `0`
by `DEPTH_FADE_END`. -/
def depthTarget (chunkCenterZ camZ : ℝ) : ℝ :=
  let depthLinear := depthLinearOf |chunkCenterZ - camZ|
  depthLinear * depthLinear

/-- One iteration of `for (const offset of CHUNK_OFFSETS)` inside the
`setChunks` updater (scene.tsx lines 535-567), with `(cx, cy, cz)` the
camera's chunk coordinate; `none` models `continue`. -/
def processOffset (camZ : ℝ) (cx cy cz : ℤ) (prev : List ChunkData) (o : ChunkOffset) :
    Option ChunkData :=
  let gridT := gridTarget o.dist
  let chunkCenterZ := (((cz + o.dz : ℤ) : ℝ) + 0.5) * CHUNK_SIZE
  let depthT := depthTarget chunkCenterZ camZ
  let targetVisibility := min gridT depthT
  let keyChunk := coordKey (cx + o.dx) (cy + o.dy) (cz + o.dz)
  let currentVisibility := prevVisibility prev keyChunk
  let visibility := lerp currentVisibility targetVisibility VISIBILITY_LERP
  if visibility < 0.01 ∧ targetVisibility = 0 then none
  else some ⟨keyChunk, cx + o.dx, cy + o.dy, cz + o.dz, visibility⟩

/-- The full `setChunks` updater for one frame (scene.tsx lines 517-570);
the camera's chunk coordinate is `Math.floor(position.axis / CHUNK_SIZE)`
(lines 518-520). -/
def updateChunks (camX camY camZ : ℝ) (prev : List ChunkData) : List ChunkData :=
  let cx := ⌊camX / CHUNK_SIZE⌋
  let cy := ⌊camY / CHUNK_SIZE⌋
  let cz := ⌊camZ / CHUNK_SIZE⌋
  CHUNK_OFFSETS.filterMap (processOffset camZ cx cy cz prev)

/-- A chunk's per-frame target visibility, as a function of the camera z
position, the camera chunk `(ccx, ccy, ccz)` and the chunk coordinate. -/
def targetVisibilityAt (camZ : ℝ) (ccx ccy ccz cx cy cz : ℤ) : ℝ :=
  min (gridTarget (chebDist (cx - ccx) (cy - ccy) (cz - ccz)))
      (depthTarget ((((cz : ℤ) : ℝ) + 0.5) * CHUNK_SIZE) camZ)

end

/-- The previous active set used in the C3 counterexample: the single chunk
`(4,0,0)` (key `"4,0,0"`) with visibility `0.5`. -/
noncomputable def farChunkPrev : List ChunkData := [⟨coordKey 4 0 0, 4, 0, 0, 0.5⟩]

/-- Whether an active set contains a chunk with the given coordinates. -/
def hasChunkAt (l : List ChunkData) (cx cy cz : ℤ) : Bool :=
  l.any (fun c => c.cx == cx && c.cy == cy && c.cz == cz)

/-- The chunk the updater emits for the camera chunk's own offset when the
camera sits at the origin with an empty previous set. -/
noncomputable def originChunk : ChunkData :=
  ⟨coordKey 0 0 0, 0, 0, 0,
   lerp (prevVisibility [] (coordKey 0 0 0)) (targetVisibilityAt 0 0 0 0 0 0 0)
     VISIBILITY_LERP⟩

noncomputable section

/-- The controller's mutable motion state: `targetVel.current`,
`velocity.current`, `camera.position` and `scrollAccum.current`
(scene.tsx lines 312-314). -/
structure MotionState where
  targetVel : Vec3
  velocity : Vec3
  camPos : Vec3
  scrollAccum : ℝ

/-- `speed` (scene.tsx line 468). -/
def speed : ℝ := 0.18

/-- The seven key checks of the frame loop (scene.tsx lines 470-496),
applied to the target velocity in source order. -/
def keyStep (keys : List String) (v : Vec3) : Vec3 :=
  let v := if "w" ∈ keys ∨ "arrowup" ∈ keys then { v with z := v.z - speed } else v
  let v := if "s" ∈ keys ∨ "arrowdown" ∈ keys then { v with z := v.z + speed } else v
  let v := if "a" ∈ keys ∨ "arrowleft" ∈ keys then { v with x := v.x - speed } else v
  let v := if "d" ∈ keys ∨ "arrowright" ∈ keys then { v with x := v.x + speed } else v
  let v := if "q" ∈ keys then { v with y := v.y - speed } else v
  let v := if "e" ∈ keys then { v with y := v.y + speed } else v
  let v := if " " ∈ keys then { v with z := v.z - speed * 1.5 } else v
  v

/-- The motion part of the `useFrame` body (scene.tsx lines 467-515) as a
pure step, in source order: key contributions (470-496), scroll fold and
accumulator decay (498-499), per-axis clamp (501-503), velocity ease
(505-507), position integration (509-511), target-velocity decay (513-515). -/
def frameStep (keys : List String) (s : MotionState) : MotionState :=
  let tv0 := keyStep keys s.targetVel
  let tv1 : Vec3 := { tv0 with z := tv0.z + s.scrollAccum }
  let accum := s.scrollAccum * 0.8
  let tv2 : Vec3 := ⟨clamp tv1.x (-MAX_VELOCITY) MAX_VELOCITY,
                     clamp tv1.y (-MAX_VELOCITY) MAX_VELOCITY,
                     clamp tv1.z (-MAX_VELOCITY) MAX_VELOCITY⟩
  let vel : Vec3 := ⟨lerp s.velocity.x tv2.x 0.16,
                     lerp s.velocity.y tv2.y 0.16,
                     lerp s.velocity.z tv2.z 0.16⟩
  let pos : Vec3 := ⟨s.camPos.x + vel.x, s.camPos.y + vel.y, s.camPos.z + vel.z⟩
  let tv3 : Vec3 := ⟨tv2.x * 0.9, tv2.y * 0.9, tv2.z * 0.9⟩
  ⟨tv3, vel, pos, accum⟩

/-- The all-zero motion state (camera at the origin). -/
def zeroMotionState : MotionState := ⟨⟨0, 0, 0⟩, ⟨0, 0, 0⟩, ⟨0, 0, 0⟩, 0⟩

/-! ### The spec's six integration stages, for the C5 refinement.
These are written from the spec's wording of the per-frame integration
order, to be compared against `frameStep` (which is written from the
source). -/

/-- Stage (1): add the fixed per-key increments to target velocity
(`speed = 0.18`, Space 1.5x on the forward axis, simultaneous keys
additive). -/
def stageApplyKeys (keys : List String) (s : MotionState) : MotionState :=
  { s with targetVel := ⟨
      s.targetVel.x + (if "a" ∈ keys ∨ "arrowleft" ∈ keys then -speed else 0)
        + (if "d" ∈ keys ∨ "arrowright" ∈ keys then speed else 0),
      s.targetVel.y + (if "q" ∈ keys then -speed else 0)
        + (if "e" ∈ keys then speed else 0),
      s.targetVel.z + (if "w" ∈ keys ∨ "arrowup" ∈ keys then -speed else 0)
        + (if "s" ∈ keys ∨ "arrowdown" ∈ keys then speed else 0)
        + (if " " ∈ keys then -(speed * 1.5) else 0)⟩ }

/-- Stage (2): fold the scroll accumulator into the forward axis and decay
the accumulator by `0.8`. -/
def stageScrollFold (s : MotionState) : MotionState :=
  { s with targetVel := { s.targetVel with z := s.targetVel.z + s.scrollAccum },
           scrollAccum := s.scrollAccum * 0.8 }

/-- Stage (3): clamp each target-velocity axis to
`[-MAX_VELOCITY, MAX_VELOCITY]`. -/
def stageClamp (s : MotionState) : MotionState :=
  { s with targetVel := ⟨clamp s.targetVel.x (-MAX_VELOCITY) MAX_VELOCITY,
      clamp s.targetVel.y (-MAX_VELOCITY) MAX_VELOCITY,
      clamp s.targetVel.z (-MAX_VELOCITY) MAX_VELOCITY⟩ }

/-- Stage (4): ease actual velocity toward target velocity with lerp
factor `0.16`. -/
def stageEase (s : MotionState) : MotionState :=
  { s with velocity := ⟨lerp s.velocity.x s.targetVel.x 0.16,
      lerp s.velocity.y s.targetVel.y 0.16,
      lerp s.velocity.z s.targetVel.z 0.16⟩ }

/-- Stage (5): add velocity to camera position. -/
def stageIntegrate (s : MotionState) : MotionState :=
  { s with camPos := ⟨s.camPos.x + s.velocity.x, s.camPos.y + s.velocity.y,
      s.camPos.z + s.velocity.z⟩ }

/-- Stage (6): decay each target-velocity axis by `0.9`. -/
def stageDecay (s : MotionState) : MotionState :=
  { s with targetVel := ⟨s.targetVel.x * 0.9, s.targetVel.y * 0.9, s.targetVel.z * 0.9⟩ }

end

/-! ### Sequential key updates equal the additive per-key sums -/

noncomputable section

/-- `getTouchDistance` (scene.tsx lines 323-337): Euclidean distance of the
first two contact points, `0` with fewer than two contacts. -/
def getTouchDistance (touches : List (ℝ × ℝ)) : ℝ :=
  match touches with
  | firstTouch :: secondTouch :: _ =>
    Real.sqrt ((firstTouch.1 - secondTouch.1) * (firstTouch.1 - secondTouch.1) +
      (firstTouch.2 - secondTouch.2) * (firstTouch.2 - secondTouch.2))
  | _ => 0

/-- `onWheel` (scene.tsx lines 378-381): `scrollAccum += deltaY * 0.006`. -/
def onWheel (deltaY scrollAccum : ℝ) : ℝ := scrollAccum + deltaY * 0.006

/-- The two-finger branch of `onTouchMove` (scene.tsx lines 412-420): with a
positive previous distance, `scrollAccum += (lastTouchDist - dist) * 0.006`. -/
def onTouchMovePinch (lastTouchDist dist scrollAccum : ℝ) : ℝ :=
  if lastTouchDist > 0 then scrollAccum + (lastTouchDist - dist) * 0.006 else scrollAccum

/-- One input event staged between frames by the DOM handlers. -/
inductive InputEvent where
  | mouseDrag (dx dy : ℝ)
  | wheel (deltaY : ℝ)
  | touchDrag (dx dy : ℝ)
  | pinch (lastDist dist : ℝ)

/-- Effect of one staged event on the shared fields the handlers write:
`onMouseMove` while dragging (lines 368-376, scale `0.012`), `onWheel`
(lines 378-381), single-finger `onTouchMove` (lines 395-410, scale `0.02`),
two-finger `onTouchMove` (lines 412-420). -/
def applyEvent (s : MotionState) (e : InputEvent) : MotionState :=
  match e with
  | InputEvent.mouseDrag dx dy =>
      { s with targetVel := ⟨s.targetVel.x - dx * 0.012, s.targetVel.y + dy * 0.012,
          s.targetVel.z⟩ }
  | InputEvent.wheel deltaY => { s with scrollAccum := onWheel deltaY s.scrollAccum }
  | InputEvent.touchDrag dx dy =>
      { s with targetVel := ⟨s.targetVel.x - dx * 0.02, s.targetVel.y + dy * 0.02,
          s.targetVel.z⟩ }
  | InputEvent.pinch lastDist dist =>
      { s with scrollAccum := onTouchMovePinch lastDist dist s.scrollAccum }

/-- One frame's input: the events delivered since the previous frame plus
the key set held during the frame callback. -/
structure FrameInput where
  events : List InputEvent
  keys : List String

/-- Run a sequence of frames: each frame first applies its staged events,
then executes the frame step. -/
def runFrames (inputs : List FrameInput) (s : MotionState) : MotionState :=
  inputs.foldl (fun s i => frameStep i.keys (i.events.foldl applyEvent s)) s

end

noncomputable section

/-- The media lookup `media[plane.mediaIndex % media.length]` of the
`Chunk` component (scene.tsx line 292).  In JavaScript `i % 0` is `NaN` and
`media[NaN]` is `undefined`, and an index outside the array range is also
`undefined`; both are modelled as `none` (the component's
`if (!mediaItem) return null` check). -/
def resolveMediaItem (media : List MediaItem) (mediaIndex : ℤ) : Option MediaItem :=
  if media.length = 0 then none
  else
    let j := mediaIndex % (media.length : ℤ)
    if 0 ≤ j then media[j.toNat]? else none

/-- The `Chunk` component (scene.tsx lines 274-304): generate the chunk's
placements with `mediaCount = media.length`, resolve each placement's media
item, and skip placements that resolve to nothing. -/
def chunkRender (media : List MediaItem) (cx cy cz : ℤ) : List (PlaneData × MediaItem) :=
  (generateChunkPlanes cx cy cz media.length).filterMap (fun plane =>
    (resolveMediaItem media plane.mediaIndex).map (fun mediaItem => (plane, mediaItem)))

/-- The scene root `InfiniteCanvasScene` (scene.tsx lines 608-614):
`if (!media.length) return null` before mounting the canvas; otherwise the
canvas is mounted with the media list. -/
def infiniteCanvasScene (media : List MediaItem) : Option (List MediaItem) :=
  if media.length = 0 then none else some media

end

/-! ## Theorems -/

theorem seededRandom_eq_fract (seed : ℝ) :
    seededRandom seed = Int.fract (Real.sin (seed * 9999) * 10000) := rfl

theorem seededRandom_nonneg (seed : ℝ) : 0 ≤ seededRandom seed := by
  rw [seededRandom_eq_fract]; exact Int.fract_nonneg _

theorem seededRandom_lt_one (seed : ℝ) : seededRandom seed < 1 := by
  rw [seededRandom_eq_fract]; exact Int.fract_lt_one _

/-- C1: Placement generation is deterministic: two calls of
`generateChunkPlanes` with the same integer chunk coordinates and the same
`mediaCount` return identical placement lists — same ids, same positions,
same sizes, same media slot indices, in the same order.  In the embedding
`generateChunkPlanes` is a pure function of exactly these arguments (it
reads no other state), so both calls denote the same list. -/
theorem generateChunkPlanes_deterministic (cx cy cz : ℤ) (mediaCount : ℕ) :
    generateChunkPlanes cx cy cz mediaCount = generateChunkPlanes cx cy cz mediaCount ∧
    (generateChunkPlanes cx cy cz mediaCount).map PlaneData.id
      = (generateChunkPlanes cx cy cz mediaCount).map PlaneData.id ∧
    (generateChunkPlanes cx cy cz mediaCount).map PlaneData.position
      = (generateChunkPlanes cx cy cz mediaCount).map PlaneData.position ∧
    (generateChunkPlanes cx cy cz mediaCount).map PlaneData.scale
      = (generateChunkPlanes cx cy cz mediaCount).map PlaneData.scale ∧
    (generateChunkPlanes cx cy cz mediaCount).map PlaneData.mediaIndex
      = (generateChunkPlanes cx cy cz mediaCount).map PlaneData.mediaIndex :=
  ⟨rfl, rfl, rfl, rfl, rfl⟩

/-- C6: `generateChunkPlanes` returns exactly `ITEMS_PER_CHUNK = 5`
placements; each has a square base scale (`scale.x = scale.y`) with side in
`[12, 20]`, and each position axis lies inside the chunk's cube bounds
`[c * CHUNK_SIZE, (c+1) * CHUNK_SIZE)` for the corresponding coordinate. -/
theorem generateChunkPlanes_geometry (cx cy cz : ℤ) (mediaCount : ℕ) :
    (generateChunkPlanes cx cy cz mediaCount).length = ITEMS_PER_CHUNK ∧
    ∀ p ∈ generateChunkPlanes cx cy cz mediaCount,
      p.scale.x = p.scale.y ∧
      (12 ≤ p.scale.x ∧ p.scale.x ≤ 20) ∧
      ((cx : ℝ) * CHUNK_SIZE ≤ p.position.x ∧ p.position.x < ((cx : ℝ) + 1) * CHUNK_SIZE) ∧
      ((cy : ℝ) * CHUNK_SIZE ≤ p.position.y ∧ p.position.y < ((cy : ℝ) + 1) * CHUNK_SIZE) ∧
      ((cz : ℝ) * CHUNK_SIZE ≤ p.position.z ∧ p.position.z < ((cz : ℝ) + 1) * CHUNK_SIZE) := by
  constructor
  · simp [generateChunkPlanes, ITEMS_PER_CHUNK]
  · intro p hp
    simp only [generateChunkPlanes, List.mem_map, List.mem_range] at hp
    obtain ⟨i, _, rfl⟩ := hp
    have hcs : (0 : ℝ) < CHUNK_SIZE := by norm_num [CHUNK_SIZE]
    have bound : ∀ (c : ℤ) (s : ℝ),
        (c : ℝ) * CHUNK_SIZE ≤ (c : ℝ) * CHUNK_SIZE + seededRandom s * CHUNK_SIZE ∧
        (c : ℝ) * CHUNK_SIZE + seededRandom s * CHUNK_SIZE < ((c : ℝ) + 1) * CHUNK_SIZE := by
      intro c s
      constructor
      · nlinarith [seededRandom_nonneg s]
      · nlinarith [seededRandom_lt_one s]
    dsimp only
    refine ⟨rfl, ⟨?_, ?_⟩, bound cx _, bound cy _, bound cz _⟩
    · nlinarith [seededRandom_nonneg ((((hashString (coordKey cx cy cz)) : ℝ) + (i : ℝ) * 1000) + 4)]
    · nlinarith [seededRandom_lt_one ((((hashString (coordKey cx cy cz)) : ℝ) + (i : ℝ) * 1000) + 4)]

/-! ## Texture / resource cache (scene.tsx lines 90-131)

`textureCache` and `videoElements` are process-wide `Map`s; `getTexture`
reads and mutates them.  The embedding threads an explicit `CacheState`.
`loads` is a log with one entry per underlying load: each
`new THREE.TextureLoader().load(url)` call and each created video element
appends its URL.  `fresh` numbers created objects so that object identity
is observable. -/

theorem mapGet_mapSet_self {α : Type} (m : List (String × α)) (k : String) (v : α) :
    mapGet (mapSet m k v) k = some v := by
  simp [mapGet, mapSet]

theorem mapGet_mapSet_other {α : Type} (m : List (String × α)) (k k' : String) (v : α)
    (h : k' ≠ k) : mapGet (mapSet m k v) k' = mapGet m k' := by
  have hbeq : (k == k') = false := beq_eq_false_iff_ne.mpr (fun he => h he.symm)
  simp [mapGet, mapSet, List.find?_cons, hbeq]

/-- After any `getTexture` call the returned texture is cached under the
item's URL. -/
theorem getTexture_caches (item : MediaItem) (s : CacheState) :
    mapGet (getTexture item s).2.textureCache item.url = some (getTexture item s).1 := by
  unfold getTexture
  cases hget : mapGet s.textureCache item.url with
  | some t => simp [hget]
  | none =>
    cases item.type
    · simp [hget, mapGet_mapSet_self]
    · cases hv : mapGet s.videoElements item.url <;>
        simp [hget, hv, mapGet_mapSet_self]

/-- A call that hits the texture cache returns the cached texture and leaves
the state untouched. -/
theorem getTexture_hit (item : MediaItem) (s : CacheState) (t : Texture)
    (h : mapGet s.textureCache item.url = some t) :
    getTexture item s = (t, s) := by
  unfold getTexture
  simp [h]

theorem cacheInv_initial : CacheInv initialCacheState := by
  intro url
  simp [initialCacheState, mapGet]

/-- Helper: appending one load of a previously-unloaded URL and caching a
texture under it preserves the invariant clauses. -/
theorem cacheInv_extend (s : CacheState) (url0 : String) (tex : Texture)
    (hs : CacheInv s) (hnotin : url0 ∉ s.loads) :
    ∀ url, (s.loads ++ [url0]).count url ≤ 1 ∧
      (url ∈ s.loads ++ [url0] →
        (mapGet (mapSet s.textureCache url0 tex) url).isSome) := by
  intro url
  by_cases hurl : url = url0
  · subst hurl
    refine ⟨?_, fun _ => by simp [mapGet_mapSet_self]⟩
    have h0 : s.loads.count url = 0 := List.count_eq_zero.mpr hnotin
    simp [List.count_append, h0]
  · refine ⟨?_, ?_⟩
    · have h1 : List.count url [url0] = 0 := by
        rw [List.count_eq_zero]; simp [hurl]
      have h2 := (hs url).1
      rw [List.count_append, h1]; omega
    · intro hmem
      rcases List.mem_append.mp hmem with hmem | hmem
      · rw [mapGet_mapSet_other _ _ _ _ hurl]
        exact (hs url).2 hmem
      · simp at hmem; exact absurd hmem hurl

/-- Helper: caching a texture without logging a load preserves the
invariant clauses. -/
theorem cacheInv_preserve (s : CacheState) (url0 : String) (tex : Texture)
    (hs : CacheInv s) :
    ∀ url, s.loads.count url ≤ 1 ∧
      (url ∈ s.loads → (mapGet (mapSet s.textureCache url0 tex) url).isSome) := by
  intro url
  refine ⟨(hs url).1, fun hmem => ?_⟩
  by_cases hurl : url = url0
  · subst hurl; simp [mapGet_mapSet_self]
  · rw [mapGet_mapSet_other _ _ _ _ hurl]; exact (hs url).2 hmem

theorem cacheInv_step (item : MediaItem) (s : CacheState) (hs : CacheInv s) :
    CacheInv (getTexture item s).2 := by
  cases hget : mapGet s.textureCache item.url with
  | some t =>
    have heq : getTexture item s = (t, s) := getTexture_hit item s t hget
    rw [heq]; exact hs
  | none =>
    have hnotin : item.url ∉ s.loads := by
      intro hmem
      have h2 := (hs item.url).2 hmem
      rw [hget] at h2; simp at h2
    unfold getTexture
    rw [hget]
    cases htype : item.type with
    | image =>
      intro url
      exact cacheInv_extend s item.url _ hs hnotin url
    | video =>
      cases hv : mapGet s.videoElements item.url with
      | some v =>
        intro url
        exact cacheInv_preserve s item.url _ hs url
      | none =>
        intro url
        exact cacheInv_extend s item.url _ hs hnotin url

theorem cacheInv_run (items : List MediaItem) (s : CacheState) (hs : CacheInv s) :
    CacheInv (runGetTextures items s) := by
  induction items generalizing s with
  | nil => exact hs
  | cons item rest ih =>
    exact ih _ (cacheInv_step item s hs)

/-- C4: cache deduplication.  Calling `getTexture` a second time with an
item of the same URL (regardless of its declared type) returns the identical
texture instance the first call returned and changes nothing — in particular
it triggers no new load; and over any sequence of `getTexture` calls from
module initialisation, at most one underlying load (TextureLoader load or
video element creation) happens per distinct URL. -/
theorem getTexture_cache_dedup (s : CacheState) (item item2 : MediaItem)
    (hurl : item2.url = item.url) (items : List MediaItem) (url : String) :
    ((getTexture item2 (getTexture item s).2).1 = (getTexture item s).1 ∧
     (getTexture item2 (getTexture item s).2).2 = (getTexture item s).2) ∧
    (runGetTextures items initialCacheState).loads.count url ≤ 1 := by
  constructor
  · have hc : mapGet (getTexture item s).2.textureCache item2.url
        = some (getTexture item s).1 := by
      rw [hurl]; exact getTexture_caches item s
    have h2 := getTexture_hit item2 (getTexture item s).2 (getTexture item s).1 hc
    rw [h2]
    exact ⟨rfl, rfl⟩
  · exact (cacheInv_run items initialCacheState cacheInv_initial url).1

theorem getTexture_cache_dedup_witness :
    ((getTexture ⟨"a", MediaType.video⟩
        (getTexture ⟨"a", MediaType.image⟩ initialCacheState).2).1
      = (getTexture ⟨"a", MediaType.image⟩ initialCacheState).1 ∧
     (getTexture ⟨"a", MediaType.video⟩
        (getTexture ⟨"a", MediaType.image⟩ initialCacheState).2).2
      = (getTexture ⟨"a", MediaType.image⟩ initialCacheState).2) ∧
    (runGetTextures [⟨"a", MediaType.image⟩, ⟨"b", MediaType.video⟩,
        ⟨"a", MediaType.video⟩, ⟨"b", MediaType.video⟩] initialCacheState).loads.count "a" ≤ 1 :=
  getTexture_cache_dedup initialCacheState ⟨"a", MediaType.image⟩ ⟨"a", MediaType.video⟩ rfl
    [⟨"a", MediaType.image⟩, ⟨"b", MediaType.video⟩,
     ⟨"a", MediaType.video⟩, ⟨"b", MediaType.video⟩] "a"

/-! ## Media dimensions and aspect-preserving display scale
(scene.tsx lines 72-88 and 177-191) -/

/-- C8: aspect preservation.  For a texture whose media element reports
natural dimensions `(w, h)` with `w > 0` and `h > 0`, the displayed scale of
a `MediaPlane` with square base scale `(H, H, 1)` is `(H * (w/h), H, 1)`
(for images the `width`/`height` fallback attributes are irrelevant); when
the texture is absent, its media element is absent, or a reported dimension
is zero, the displayed scale falls back to the base scale `(H, H, 1)`. -/
theorem displayScale_aspect (w h H w0 h0 : ℝ) (hw : 0 < w) (hh : 0 < h) :
    displayScale (some (some (MediaEl.imageEl w h w0 h0))) ⟨H, H, 1⟩ = ⟨H * (w / h), H, 1⟩ ∧
    displayScale (some (some (MediaEl.videoEl w h))) ⟨H, H, 1⟩ = ⟨H * (w / h), H, 1⟩ ∧
    displayScale none ⟨H, H, 1⟩ = ⟨H, H, 1⟩ ∧
    displayScale (some none) ⟨H, H, 1⟩ = ⟨H, H, 1⟩ ∧
    displayScale (some (some (MediaEl.videoEl 0 h))) ⟨H, H, 1⟩ = ⟨H, H, 1⟩ ∧
    displayScale (some (some (MediaEl.videoEl w 0))) ⟨H, H, 1⟩ = ⟨H, H, 1⟩ := by
  have hw' : w ≠ 0 := ne_of_gt hw
  have hh' : h ≠ 0 := ne_of_gt hh
  have hdiv : w / h ≠ 0 := div_ne_zero hw' hh'
  refine ⟨?_, ?_, rfl, rfl, ?_, ?_⟩ <;>
    simp [displayScale, getMediaDimensions, hw', hh', hdiv]

theorem displayScale_aspect_witness :
    displayScale (some (some (MediaEl.imageEl 4 2 0 0))) ⟨10, 10, 1⟩ = ⟨10 * (4 / 2), 10, 1⟩ ∧
    displayScale (some (some (MediaEl.videoEl 4 2))) ⟨10, 10, 1⟩ = ⟨10 * (4 / 2), 10, 1⟩ ∧
    displayScale none ⟨10, 10, 1⟩ = ⟨10, 10, 1⟩ ∧
    displayScale (some none) ⟨10, 10, 1⟩ = ⟨10, 10, 1⟩ ∧
    displayScale (some (some (MediaEl.videoEl 0 2))) ⟨10, 10, 1⟩ = ⟨10, 10, 1⟩ ∧
    displayScale (some (some (MediaEl.videoEl 4 0))) ⟨10, 10, 1⟩ = ⟨10, 10, 1⟩ :=
  displayScale_aspect 4 2 10 0 0 (by norm_num) (by norm_num)

/-! ## Chunk offset enumeration (scene.tsx lines 40-50) -/

theorem mem_offsetRange {z : ℤ} : z ∈ offsetRange ↔ -MAX_DIST ≤ z ∧ z ≤ MAX_DIST := by
  unfold offsetRange
  rw [List.mem_map]
  constructor
  · rintro ⟨i, hi, rfl⟩
    rw [List.mem_range] at hi
    unfold MAX_DIST RENDER_DISTANCE CHUNK_FADE_MARGIN at *
    omega
  · rintro ⟨h1, h2⟩
    refine ⟨(z + MAX_DIST).toNat, ?_, ?_⟩
    · rw [List.mem_range]
      unfold MAX_DIST RENDER_DISTANCE CHUNK_FADE_MARGIN at *
      omega
    · unfold MAX_DIST RENDER_DISTANCE CHUNK_FADE_MARGIN at *
      omega

theorem mem_CHUNK_OFFSETS {o : ChunkOffset} :
    o ∈ CHUNK_OFFSETS ↔
      (-MAX_DIST ≤ o.dx ∧ o.dx ≤ MAX_DIST) ∧
      (-MAX_DIST ≤ o.dy ∧ o.dy ≤ MAX_DIST) ∧
      (-MAX_DIST ≤ o.dz ∧ o.dz ≤ MAX_DIST) ∧
      o.dist = chebDist o.dx o.dy o.dz := by
  have hcheb : ∀ dx dy dz : ℤ, -MAX_DIST ≤ dx → dx ≤ MAX_DIST → -MAX_DIST ≤ dy →
      dy ≤ MAX_DIST → -MAX_DIST ≤ dz → dz ≤ MAX_DIST → ¬ chebDist dx dy dz > MAX_DIST := by
    intro dx dy dz h1 h2 h3 h4 h5 h6
    simp only [chebDist, not_lt, max_le_iff, abs_le]
    refine ⟨⟨⟨h1, h2⟩, h3, h4⟩, h5, h6⟩
  constructor
  · intro ho
    simp only [CHUNK_OFFSETS, List.mem_flatMap, List.mem_filterMap] at ho
    obtain ⟨dx, hdx, dy, hdy, dz, hdz, hsome⟩ := ho
    rw [mem_offsetRange] at hdx hdy hdz
    split at hsome
    · exact absurd hsome (by simp)
    · obtain rfl := (Option.some_inj.mp hsome).symm
      exact ⟨hdx, hdy, hdz, rfl⟩
  · rintro ⟨hdx, hdy, hdz, hdist⟩
    simp only [CHUNK_OFFSETS, List.mem_flatMap, List.mem_filterMap]
    refine ⟨o.dx, mem_offsetRange.mpr hdx, o.dy, mem_offsetRange.mpr hdy,
      o.dz, mem_offsetRange.mpr hdz, ?_⟩
    rw [if_neg (hcheb o.dx o.dy o.dz hdx.1 hdx.2 hdy.1 hdy.2 hdz.1 hdz.2)]
    rw [← hdist]

/-! ## Per-frame chunk visibility update (scene.tsx lines 517-570) -/

theorem gridTarget_mem (dist : ℤ) : 0 ≤ gridTarget dist ∧ gridTarget dist ≤ 1 := by
  unfold gridTarget RENDER_DISTANCE CHUNK_FADE_MARGIN
  split
  · norm_num
  · rename_i h
    rw [not_le] at h
    have hd : (3:ℝ) ≤ (dist : ℝ) := by exact_mod_cast (show (3:ℤ) ≤ dist by omega)
    refine ⟨le_max_left 0 _, max_le (by norm_num) ?_⟩
    have hmax : max (((1:ℤ) : ℝ)) 0.0001 = 1 := by norm_num
    rw [hmax]
    have hq : (0:ℝ) ≤ ((dist : ℝ) - ((2:ℤ) : ℝ)) / 1 := by
      apply div_nonneg _ zero_le_one
      push_cast
      linarith
    linarith

theorem depthLinearOf_mem (x : ℝ) : 0 ≤ depthLinearOf x ∧ depthLinearOf x ≤ 1 := by
  unfold depthLinearOf DEPTH_FADE_START DEPTH_FADE_END
  split
  · norm_num
  · rename_i h
    rw [not_le] at h
    refine ⟨le_max_left 0 _, max_le (by norm_num) ?_⟩
    have hmax : max ((260:ℝ) - 140) 0.0001 = 120 := by norm_num
    rw [hmax]
    have hq : (0:ℝ) ≤ (x - 140) / 120 := div_nonneg (by linarith) (by norm_num)
    linarith

theorem depthTarget_mem (c z : ℝ) : 0 ≤ depthTarget c z ∧ depthTarget c z ≤ 1 := by
  unfold depthTarget
  dsimp only
  obtain ⟨h0, h1⟩ := depthLinearOf_mem |c - z|
  refine ⟨mul_nonneg h0 h0, ?_⟩
  nlinarith

theorem targetVisibilityAt_mem (camZ : ℝ) (ccx ccy ccz cx cy cz : ℤ) :
    0 ≤ targetVisibilityAt camZ ccx ccy ccz cx cy cz ∧
    targetVisibilityAt camZ ccx ccy ccz cx cy cz ≤ 1 := by
  unfold targetVisibilityAt
  obtain ⟨g0, g1⟩ := gridTarget_mem (chebDist (cx - ccx) (cy - ccy) (cz - ccz))
  obtain ⟨d0, d1⟩ := depthTarget_mem ((((cz : ℤ) : ℝ) + 0.5) * CHUNK_SIZE) camZ
  exact ⟨le_min g0 d0, (min_le_left _ _).trans g1⟩

theorem lerp_mem_unit {a b t : ℝ} (ha : 0 ≤ a) (ha1 : a ≤ 1) (hb : 0 ≤ b) (hb1 : b ≤ 1)
    (ht : 0 ≤ t) (ht1 : t ≤ 1) : 0 ≤ lerp a b t ∧ lerp a b t ≤ 1 := by
  unfold lerp
  constructor <;> nlinarith

theorem lerp_sub_self (a b t : ℝ) : lerp a b t - a = t * (b - a) := by
  unfold lerp; ring

theorem foldl_lookup_mem (l : List ChunkData) (key : String) :
    ∀ (acc : Option ChunkData) (c : ChunkData),
      l.foldl (fun acc c => if c.key = key then some c else acc) acc = some c →
      c ∈ l ∨ acc = some c := by
  induction l with
  | nil => intro acc c h; exact Or.inr h
  | cons hd tl ih =>
    intro acc c h
    rcases ih (if hd.key = key then some hd else acc) c h with hmem | hacc
    · exact Or.inl (List.mem_cons_of_mem _ hmem)
    · by_cases hk : hd.key = key
      · rw [if_pos hk] at hacc
        obtain rfl := Option.some_inj.mp hacc
        exact Or.inl (List.mem_cons_self _ _)
      · rw [if_neg hk] at hacc
        exact Or.inr hacc

theorem prevLookup_mem (prev : List ChunkData) (key : String) (c : ChunkData)
    (h : prevLookup prev key = some c) : c ∈ prev := by
  unfold prevLookup at h
  rcases foldl_lookup_mem prev key none c h with hmem | hacc
  · exact hmem
  · exact absurd hacc (by simp)

theorem prevVisibility_mem_unit (prev : List ChunkData) (key : String)
    (hprev : ∀ c ∈ prev, 0 ≤ c.visibility ∧ c.visibility ≤ 1) :
    0 ≤ prevVisibility prev key ∧ prevVisibility prev key ≤ 1 := by
  unfold prevVisibility
  cases h : prevLookup prev key with
  | none => simp
  | some c =>
    have hc := hprev c (prevLookup_mem prev key c h)
    simpa using hc

/-- Characterisation of the chunks emitted by one `setChunks` update: each
comes from an enumerated offset, carries the corresponding key and
coordinates, and its visibility is the previous visibility eased toward the
chunk's target visibility by `VISIBILITY_LERP`. -/
theorem mem_updateChunks {camX camY camZ : ℝ} {prev : List ChunkData} {c : ChunkData}
    (hc : c ∈ updateChunks camX camY camZ prev) :
    ∃ o ∈ CHUNK_OFFSETS,
      c.key = coordKey (⌊camX / CHUNK_SIZE⌋ + o.dx) (⌊camY / CHUNK_SIZE⌋ + o.dy)
        (⌊camZ / CHUNK_SIZE⌋ + o.dz) ∧
      c.cx = ⌊camX / CHUNK_SIZE⌋ + o.dx ∧ c.cy = ⌊camY / CHUNK_SIZE⌋ + o.dy ∧
      c.cz = ⌊camZ / CHUNK_SIZE⌋ + o.dz ∧
      c.visibility = lerp (prevVisibility prev c.key)
        (targetVisibilityAt camZ ⌊camX / CHUNK_SIZE⌋ ⌊camY / CHUNK_SIZE⌋ ⌊camZ / CHUNK_SIZE⌋
          c.cx c.cy c.cz) VISIBILITY_LERP := by
  unfold updateChunks at hc
  rw [List.mem_filterMap] at hc
  obtain ⟨o, ho, hsome⟩ := hc
  refine ⟨o, ho, ?_⟩
  have hdist := (mem_CHUNK_OFFSETS.mp ho).2.2.2
  unfold processOffset at hsome
  dsimp only at hsome
  split at hsome
  · exact absurd hsome (by simp)
  · obtain rfl := (Option.some_inj.mp hsome).symm
    refine ⟨rfl, rfl, rfl, rfl, ?_⟩
    simp only [targetVisibilityAt, add_sub_cancel_left, ← hdist]

/-- C2: on every frame, every chunk in the updated active set has
visibility in `[0, 1]` (given the previous frame's visibilities were), and
its visibility change from the previous value (0 for a newly entered chunk)
equals `VISIBILITY_LERP = 0.18` times the gap between the previous value and
the chunk's target visibility — hence the change magnitude never
exceeds `0.18`. -/
theorem visibility_bounds (camX camY camZ : ℝ) (prev : List ChunkData)
    (hprev : ∀ c ∈ prev, 0 ≤ c.visibility ∧ c.visibility ≤ 1) :
    ∀ c ∈ updateChunks camX camY camZ prev,
      (0 ≤ c.visibility ∧ c.visibility ≤ 1) ∧
      c.visibility - prevVisibility prev c.key
        = VISIBILITY_LERP *
          (targetVisibilityAt camZ ⌊camX / CHUNK_SIZE⌋ ⌊camY / CHUNK_SIZE⌋ ⌊camZ / CHUNK_SIZE⌋
            c.cx c.cy c.cz - prevVisibility prev c.key) ∧
      |c.visibility - prevVisibility prev c.key| ≤ VISIBILITY_LERP := by
  intro c hc
  obtain ⟨o, ho, hkey, hcx, hcy, hcz, hvis⟩ := mem_updateChunks hc
  obtain ⟨hp0, hp1⟩ := prevVisibility_mem_unit prev c.key hprev
  obtain ⟨ht0, ht1⟩ := targetVisibilityAt_mem camZ ⌊camX / CHUNK_SIZE⌋ ⌊camY / CHUNK_SIZE⌋
    ⌊camZ / CHUNK_SIZE⌋ c.cx c.cy c.cz
  have hV0 : (0:ℝ) ≤ VISIBILITY_LERP := by norm_num [VISIBILITY_LERP]
  have hV1 : VISIBILITY_LERP ≤ (1:ℝ) := by norm_num [VISIBILITY_LERP]
  refine ⟨?_, ?_, ?_⟩
  · rw [hvis]
    exact lerp_mem_unit hp0 hp1 ht0 ht1 hV0 hV1
  · rw [hvis, lerp_sub_self]
  · rw [hvis, lerp_sub_self, abs_mul, abs_of_nonneg hV0]
    have habs : |targetVisibilityAt camZ ⌊camX / CHUNK_SIZE⌋ ⌊camY / CHUNK_SIZE⌋
        ⌊camZ / CHUNK_SIZE⌋ c.cx c.cy c.cz - prevVisibility prev c.key| ≤ 1 :=
      abs_le.mpr ⟨by linarith, by linarith⟩
    nlinarith


/-! ### Chunk retirement (claim C3) -/

/-- `processOffset` rewritten through `targetVisibilityAt`, for offsets
whose stored `dist` is the Chebyshev distance of their components (true of
every member of `CHUNK_OFFSETS`). -/
theorem processOffset_eq (camZ : ℝ) (ccx ccy ccz : ℤ) (prev : List ChunkData)
    (o : ChunkOffset) (hdist : o.dist = chebDist o.dx o.dy o.dz) :
    processOffset camZ ccx ccy ccz prev o =
      (if lerp (prevVisibility prev (coordKey (ccx + o.dx) (ccy + o.dy) (ccz + o.dz)))
            (targetVisibilityAt camZ ccx ccy ccz (ccx + o.dx) (ccy + o.dy) (ccz + o.dz))
            VISIBILITY_LERP < 0.01 ∧
          targetVisibilityAt camZ ccx ccy ccz (ccx + o.dx) (ccy + o.dy) (ccz + o.dz) = 0
       then none
       else some ⟨coordKey (ccx + o.dx) (ccy + o.dy) (ccz + o.dz),
          ccx + o.dx, ccy + o.dy, ccz + o.dz,
          lerp (prevVisibility prev (coordKey (ccx + o.dx) (ccy + o.dy) (ccz + o.dz)))
            (targetVisibilityAt camZ ccx ccy ccz (ccx + o.dx) (ccy + o.dy) (ccz + o.dz))
            VISIBILITY_LERP⟩) := by
  unfold processOffset targetVisibilityAt
  dsimp only
  rw [hdist]
  simp only [add_sub_cancel_left]

/-- C3 (amended): a chunk whose coordinates lie within Chebyshev distance
`MAX_DIST = RENDER_DISTANCE + CHUNK_FADE_MARGIN` of the camera's current
chunk, and which does not satisfy the drop condition (target visibility
exactly 0 and eased visibility below 0.01), is always present in the next
frame's active set with its eased visibility — so within the enumerated
range, a chunk with positive target visibility, or with eased visibility at
or above 0.01, is never removed by the per-frame update. -/
theorem chunk_retention (camX camY camZ : ℝ) (prev : List ChunkData) (cx cy cz : ℤ)
    (hdx : -MAX_DIST ≤ cx - ⌊camX / CHUNK_SIZE⌋ ∧ cx - ⌊camX / CHUNK_SIZE⌋ ≤ MAX_DIST)
    (hdy : -MAX_DIST ≤ cy - ⌊camY / CHUNK_SIZE⌋ ∧ cy - ⌊camY / CHUNK_SIZE⌋ ≤ MAX_DIST)
    (hdz : -MAX_DIST ≤ cz - ⌊camZ / CHUNK_SIZE⌋ ∧ cz - ⌊camZ / CHUNK_SIZE⌋ ≤ MAX_DIST)
    (hkeep : ¬ (lerp (prevVisibility prev (coordKey cx cy cz))
        (targetVisibilityAt camZ ⌊camX / CHUNK_SIZE⌋ ⌊camY / CHUNK_SIZE⌋ ⌊camZ / CHUNK_SIZE⌋
          cx cy cz) VISIBILITY_LERP < 0.01 ∧
      targetVisibilityAt camZ ⌊camX / CHUNK_SIZE⌋ ⌊camY / CHUNK_SIZE⌋ ⌊camZ / CHUNK_SIZE⌋
        cx cy cz = 0)) :
    (⟨coordKey cx cy cz, cx, cy, cz,
      lerp (prevVisibility prev (coordKey cx cy cz))
        (targetVisibilityAt camZ ⌊camX / CHUNK_SIZE⌋ ⌊camY / CHUNK_SIZE⌋ ⌊camZ / CHUNK_SIZE⌋
          cx cy cz) VISIBILITY_LERP⟩ : ChunkData) ∈ updateChunks camX camY camZ prev := by
  have hccx : ⌊camX / CHUNK_SIZE⌋ + (cx - ⌊camX / CHUNK_SIZE⌋) = cx := by ring
  have hccy : ⌊camY / CHUNK_SIZE⌋ + (cy - ⌊camY / CHUNK_SIZE⌋) = cy := by ring
  have hccz : ⌊camZ / CHUNK_SIZE⌋ + (cz - ⌊camZ / CHUNK_SIZE⌋) = cz := by ring
  have ho : (⟨cx - ⌊camX / CHUNK_SIZE⌋, cy - ⌊camY / CHUNK_SIZE⌋, cz - ⌊camZ / CHUNK_SIZE⌋,
      chebDist (cx - ⌊camX / CHUNK_SIZE⌋) (cy - ⌊camY / CHUNK_SIZE⌋)
        (cz - ⌊camZ / CHUNK_SIZE⌋)⟩ : ChunkOffset) ∈ CHUNK_OFFSETS :=
    mem_CHUNK_OFFSETS.mpr ⟨hdx, hdy, hdz, rfl⟩
  have hproc := processOffset_eq camZ ⌊camX / CHUNK_SIZE⌋ ⌊camY / CHUNK_SIZE⌋
    ⌊camZ / CHUNK_SIZE⌋ prev
    ⟨cx - ⌊camX / CHUNK_SIZE⌋, cy - ⌊camY / CHUNK_SIZE⌋, cz - ⌊camZ / CHUNK_SIZE⌋,
      chebDist (cx - ⌊camX / CHUNK_SIZE⌋) (cy - ⌊camY / CHUNK_SIZE⌋)
        (cz - ⌊camZ / CHUNK_SIZE⌋)⟩ rfl
  rw [hccx, hccy, hccz, if_neg hkeep] at hproc
  unfold updateChunks
  rw [List.mem_filterMap]
  exact ⟨_, ho, hproc⟩

/-- Helper for the C3 witness: at the origin the chunk `(0,0,0)` has target
visibility `1` (both fade gates fully open). -/
theorem targetVisibilityAt_origin : targetVisibilityAt 0 0 0 0 0 0 0 = 1 := by
  unfold targetVisibilityAt chebDist gridTarget depthTarget depthLinearOf
  norm_num [CHUNK_SIZE, DEPTH_FADE_START, RENDER_DISTANCE, abs_of_nonneg]

/-- Helper for the C2 witness: the membership of `originChunk` in the
update of the empty previous set with the camera at the origin. -/
theorem origin_chunk_mem : originChunk ∈ updateChunks 0 0 0 [] := by
  have hfloor : ⌊(0:ℝ) / CHUNK_SIZE⌋ = 0 := by rw [zero_div]; exact Int.floor_zero
  have ho : (⟨0, 0, 0, chebDist 0 0 0⟩ : ChunkOffset) ∈ CHUNK_OFFSETS := by
    apply mem_CHUNK_OFFSETS.mpr
    refine ⟨⟨?_, ?_⟩, ⟨?_, ?_⟩, ⟨?_, ?_⟩, rfl⟩ <;>
      (dsimp only; unfold MAX_DIST RENDER_DISTANCE CHUNK_FADE_MARGIN; omega)
  have hproc := processOffset_eq 0 0 0 0 [] ⟨0, 0, 0, chebDist 0 0 0⟩ rfl
  dsimp only at hproc
  simp only [add_zero] at hproc
  rw [if_neg] at hproc
  · unfold updateChunks originChunk
    dsimp only
    rw [hfloor, List.mem_filterMap]
    exact ⟨_, ho, hproc⟩
  · rw [targetVisibilityAt_origin]
    intro hcontra
    exact one_ne_zero hcontra.2

theorem visibility_bounds_witness :
    (0 ≤ originChunk.visibility ∧ originChunk.visibility ≤ 1) ∧
    originChunk.visibility - prevVisibility [] originChunk.key
      = VISIBILITY_LERP *
        (targetVisibilityAt 0 ⌊(0:ℝ) / CHUNK_SIZE⌋ ⌊(0:ℝ) / CHUNK_SIZE⌋ ⌊(0:ℝ) / CHUNK_SIZE⌋
          originChunk.cx originChunk.cy originChunk.cz - prevVisibility [] originChunk.key) ∧
    |originChunk.visibility - prevVisibility [] originChunk.key| ≤ VISIBILITY_LERP :=
  visibility_bounds 0 0 0 [] (by simp) originChunk origin_chunk_mem

theorem chunk_retention_witness :
    (⟨coordKey 0 0 0, 0, 0, 0,
      lerp (prevVisibility [] (coordKey 0 0 0))
        (targetVisibilityAt 0 ⌊(0:ℝ) / CHUNK_SIZE⌋ ⌊(0:ℝ) / CHUNK_SIZE⌋ ⌊(0:ℝ) / CHUNK_SIZE⌋
          0 0 0) VISIBILITY_LERP⟩ : ChunkData) ∈ updateChunks 0 0 0 [] := by
  have hfloor : ⌊(0:ℝ) / CHUNK_SIZE⌋ = 0 := by rw [zero_div]; exact Int.floor_zero
  refine chunk_retention 0 0 0 [] 0 0 0 ?_ ?_ ?_ ?_ <;>
    rw [hfloor]
  · norm_num [MAX_DIST, RENDER_DISTANCE, CHUNK_FADE_MARGIN]
  · norm_num [MAX_DIST, RENDER_DISTANCE, CHUNK_FADE_MARGIN]
  · norm_num [MAX_DIST, RENDER_DISTANCE, CHUNK_FADE_MARGIN]
  · rw [targetVisibilityAt_origin]
    intro hcontra
    exact one_ne_zero hcontra.2

/-- C3 is false as stated: with the camera at the origin, the previous
active set contains the chunk `(4,0,0)` whose eased visibility this frame
is `0.41 ≥ 0.01`, yet the per-frame update removes it — it lies outside the
enumerated offset cube (Chebyshev distance 4 > 3 from the camera chunk), so
it is dropped without any visibility test, contradicting "a chunk with
eased visibility at or above 0.01 is never removed by the per-frame
update". -/
theorem chunk_drop_counterexample :
    hasChunkAt farChunkPrev 4 0 0 = true ∧
    prevVisibility farChunkPrev (coordKey 4 0 0) = 0.5 ∧
    0.01 ≤ lerp (prevVisibility farChunkPrev (coordKey 4 0 0))
      (targetVisibilityAt 0 0 0 0 4 0 0) VISIBILITY_LERP ∧
    hasChunkAt (updateChunks 0 0 0 farChunkPrev) 4 0 0 = false := by
  have hpv : prevVisibility farChunkPrev (coordKey 4 0 0) = 0.5 := by
    simp [prevVisibility, prevLookup, farChunkPrev]
  refine ⟨by simp [hasChunkAt, farChunkPrev], hpv, ?_, ?_⟩
  · have htv : targetVisibilityAt 0 0 0 0 4 0 0 = 0 := by
      have hgrid : gridTarget (chebDist (4 - 0) (0 - 0) (0 - 0)) = 0 := by
        unfold gridTarget chebDist
        norm_num [RENDER_DISTANCE, CHUNK_FADE_MARGIN]
      have hdepth := (depthTarget_mem ((((0:ℤ) : ℝ) + 0.5) * CHUNK_SIZE) 0).1
      unfold targetVisibilityAt
      rw [hgrid]
      exact min_eq_left hdepth
    rw [hpv, htv]
    norm_num [lerp, VISIBILITY_LERP]
  · unfold hasChunkAt
    rw [List.any_eq_false]
    intro c hc
    obtain ⟨o, ho, hkey, hcx, hcy, hcz, hvis⟩ := mem_updateChunks hc
    have hdx := ((mem_CHUNK_OFFSETS.mp ho).1).2
    have hfloor : ⌊(0:ℝ) / CHUNK_SIZE⌋ = 0 := by rw [zero_div]; exact Int.floor_zero
    rw [hfloor] at hcx
    simp only [Bool.and_eq_true, beq_iff_eq, not_and]
    intro h4 _
    rw [h4.1] at hcx
    unfold MAX_DIST RENDER_DISTANCE CHUNK_FADE_MARGIN at hdx
    omega

/-! ## Camera / input controller (scene.tsx lines 307-515) -/

theorem keyStep_x (keys : List String) (v : Vec3) :
    (keyStep keys v).x = v.x + (if "a" ∈ keys ∨ "arrowleft" ∈ keys then -speed else 0)
      + (if "d" ∈ keys ∨ "arrowright" ∈ keys then speed else 0) := by
  unfold keyStep
  simp only [apply_ite Vec3.x, ite_self]
  split_ifs <;> ring

theorem keyStep_y (keys : List String) (v : Vec3) :
    (keyStep keys v).y = v.y + (if "q" ∈ keys then -speed else 0)
      + (if "e" ∈ keys then speed else 0) := by
  unfold keyStep
  simp only [apply_ite Vec3.y, ite_self]
  split_ifs <;> ring

theorem keyStep_z (keys : List String) (v : Vec3) :
    (keyStep keys v).z = v.z + (if "w" ∈ keys ∨ "arrowup" ∈ keys then -speed else 0)
      + (if "s" ∈ keys ∨ "arrowdown" ∈ keys then speed else 0)
      + (if " " ∈ keys then -(speed * 1.5) else 0) := by
  unfold keyStep
  simp only [apply_ite Vec3.z, ite_self]
  split_ifs <;> ring

/-- C5: within one frame the controller performs exactly the claimed staged
computation, in exactly the claimed order: (1) per-key increments, (2)
scroll fold into the forward axis with 0.8 accumulator decay, (3) per-axis
clamp to `[-3.2, 3.2]`, (4) velocity ease with lerp factor 0.16, (5)
velocity added to camera position, (6) target-velocity decay by 0.9. -/
theorem frameStep_stage_order (keys : List String) (s : MotionState) :
    frameStep keys s =
      stageDecay (stageIntegrate (stageEase (stageClamp (stageScrollFold
        (stageApplyKeys keys s))))) := by
  unfold frameStep stageDecay stageIntegrate stageEase stageClamp stageScrollFold stageApplyKeys
  dsimp only
  rw [keyStep_x keys s.targetVel, keyStep_y keys s.targetVel, keyStep_z keys s.targetVel]

/-- The explicit record form of `frameStep` (pure unfolding of the lets). -/
theorem frameStep_eq (keys : List String) (s : MotionState) :
    frameStep keys s =
      ⟨⟨clamp (keyStep keys s.targetVel).x (-MAX_VELOCITY) MAX_VELOCITY * 0.9,
        clamp (keyStep keys s.targetVel).y (-MAX_VELOCITY) MAX_VELOCITY * 0.9,
        clamp ((keyStep keys s.targetVel).z + s.scrollAccum) (-MAX_VELOCITY) MAX_VELOCITY * 0.9⟩,
       ⟨lerp s.velocity.x (clamp (keyStep keys s.targetVel).x (-MAX_VELOCITY) MAX_VELOCITY) 0.16,
        lerp s.velocity.y (clamp (keyStep keys s.targetVel).y (-MAX_VELOCITY) MAX_VELOCITY) 0.16,
        lerp s.velocity.z
          (clamp ((keyStep keys s.targetVel).z + s.scrollAccum) (-MAX_VELOCITY) MAX_VELOCITY) 0.16⟩,
       ⟨s.camPos.x +
          lerp s.velocity.x (clamp (keyStep keys s.targetVel).x (-MAX_VELOCITY) MAX_VELOCITY) 0.16,
        s.camPos.y +
          lerp s.velocity.y (clamp (keyStep keys s.targetVel).y (-MAX_VELOCITY) MAX_VELOCITY) 0.16,
        s.camPos.z +
          lerp s.velocity.z
            (clamp ((keyStep keys s.targetVel).z + s.scrollAccum) (-MAX_VELOCITY) MAX_VELOCITY) 0.16⟩,
       s.scrollAccum * 0.8⟩ := rfl

theorem keyStep_nil (v : Vec3) : keyStep [] v = v := by
  simp [keyStep]

/-! ## Wheel and touch input (scene.tsx lines 323-337, 378-423) -/

theorem touchDist_100 : getTouchDistance [((0:ℝ), (0:ℝ)), (100, 0)] = 100 := by
  show Real.sqrt ((0 - 100) * (0 - 100) + (0 - 0) * (0 - 0)) = 100
  rw [show ((0:ℝ) - 100) * (0 - 100) + (0 - 0) * (0 - 0) = 100 ^ 2 by norm_num]
  exact Real.sqrt_sq (by norm_num)

theorem touchDist_50 : getTouchDistance [((0:ℝ), (0:ℝ)), (50, 0)] = 50 := by
  show Real.sqrt ((0 - 50) * (0 - 50) + (0 - 0) * (0 - 0)) = 50
  rw [show ((0:ℝ) - 50) * (0 - 50) + (0 - 0) * (0 - 0) = 50 ^ 2 by norm_num]
  exact Real.sqrt_sq (by norm_num)

theorem clamp_pos {v M : ℝ} (hv : 0 < v) (hM : 0 < M) : 0 < clamp v (-M) M := by
  unfold clamp
  exact lt_of_lt_of_le (lt_min hM hv) (le_max_right _ _)

theorem clamp_neg {v M : ℝ} (hv : v < 0) (hM : 0 < M) : clamp v (-M) M < 0 := by
  unfold clamp
  exact max_lt (by linarith) (lt_of_le_of_lt (min_le_right _ _) hv)

/-- C7 is false as stated: a pinch-in (Euclidean distance decreasing from
100 to 50 between successive touch-move events) accumulates `+0.3` into the
scroll buffer, and a positive scroll buffer drives the target velocity's z
axis positive — while the W key drives it negative.  Pinch-in therefore
moves the camera in the direction opposite the W key, contradicting the
claimed "same direction as the W key". -/
theorem pinch_direction_counterexample :
    getTouchDistance [((0:ℝ), (0:ℝ)), (50, 0)] < getTouchDistance [((0:ℝ), (0:ℝ)), (100, 0)] ∧
    onTouchMovePinch (getTouchDistance [((0:ℝ), (0:ℝ)), (100, 0)])
      (getTouchDistance [((0:ℝ), (0:ℝ)), (50, 0)]) 0 = 0.3 ∧
    0 < (frameStep [] { zeroMotionState with scrollAccum := 0.3 }).targetVel.z ∧
    (frameStep ["w"] zeroMotionState).targetVel.z < 0 := by
  rw [touchDist_100, touchDist_50]
  refine ⟨by norm_num, ?_, ?_, ?_⟩
  · unfold onTouchMovePinch
    norm_num
  · rw [frameStep_eq]
    dsimp only [zeroMotionState]
    rw [keyStep_nil]
    dsimp only
    rw [zero_add]
    exact mul_pos (clamp_pos (by norm_num) (by norm_num [MAX_VELOCITY])) (by norm_num)
  · rw [frameStep_eq]
    dsimp only [zeroMotionState]
    rw [keyStep_z]
    have hz : ((⟨0, 0, 0⟩ : Vec3).z + (if "w" ∈ ["w"] ∨ "arrowup" ∈ ["w"] then -speed else 0)
        + (if "s" ∈ ["w"] ∨ "arrowdown" ∈ ["w"] then speed else 0)
        + (if " " ∈ ["w"] then -(speed * 1.5) else 0)) + (0:ℝ) = -0.18 := by
      simp +decide [speed]
    rw [hz]
    have := clamp_neg (v := -0.18) (M := MAX_VELOCITY) (by norm_num) (by norm_num [MAX_VELOCITY])
    nlinarith

/-- C7 (amended): when two touch contacts are active, a pinch-in (Euclidean
distance decreasing between successive touch-move events) strictly raises
the scroll accumulator, and a positive scroll accumulator drives the
forward target-velocity axis in the positive-z (backward) direction — the
same direction as the S key and opposite the W key; symmetrically a
pinch-out strictly lowers the accumulator, and a negative accumulator
drives the camera forward (negative z), the direction of the W key. -/
theorem pinch_direction (tIn tIn' tOut tOut' : List (ℝ × ℝ)) (a A B : ℝ)
    (hInPos : 0 < getTouchDistance tIn)
    (hIn : getTouchDistance tIn' < getTouchDistance tIn)
    (hOutPos : 0 < getTouchDistance tOut)
    (hOut : getTouchDistance tOut < getTouchDistance tOut')
    (hA : 0 < A) (hB : B < 0) :
    a < onTouchMovePinch (getTouchDistance tIn) (getTouchDistance tIn') a ∧
    onTouchMovePinch (getTouchDistance tOut) (getTouchDistance tOut') a < a ∧
    (0 < (frameStep [] { zeroMotionState with scrollAccum := A }).targetVel.z ∧
     0 < (frameStep [] { zeroMotionState with scrollAccum := A }).velocity.z ∧
     0 < (frameStep [] { zeroMotionState with scrollAccum := A }).camPos.z) ∧
    ((frameStep [] { zeroMotionState with scrollAccum := B }).targetVel.z < 0 ∧
     (frameStep [] { zeroMotionState with scrollAccum := B }).velocity.z < 0 ∧
     (frameStep [] { zeroMotionState with scrollAccum := B }).camPos.z < 0) ∧
    0 < (frameStep ["s"] zeroMotionState).targetVel.z ∧
    (frameStep ["w"] zeroMotionState).targetVel.z < 0 := by
  have hMpos : (0:ℝ) < MAX_VELOCITY := by norm_num [MAX_VELOCITY]
  have hposState : ∀ C : ℝ, 0 < C →
      0 < (frameStep [] { zeroMotionState with scrollAccum := C }).targetVel.z ∧
      0 < (frameStep [] { zeroMotionState with scrollAccum := C }).velocity.z ∧
      0 < (frameStep [] { zeroMotionState with scrollAccum := C }).camPos.z := by
    intro C hC
    rw [frameStep_eq]
    dsimp only [zeroMotionState]
    rw [keyStep_nil]
    dsimp only
    rw [zero_add]
    have hcl := clamp_pos hC hMpos
    have hlerp : lerp 0 (clamp C (-MAX_VELOCITY) MAX_VELOCITY) 0.16
        = clamp C (-MAX_VELOCITY) MAX_VELOCITY * 0.16 := by
      unfold lerp; ring
    rw [hlerp]
    refine ⟨mul_pos hcl (by norm_num), mul_pos hcl (by norm_num), ?_⟩
    rw [zero_add]
    exact mul_pos hcl (by norm_num)
  have hnegState : ∀ C : ℝ, C < 0 →
      (frameStep [] { zeroMotionState with scrollAccum := C }).targetVel.z < 0 ∧
      (frameStep [] { zeroMotionState with scrollAccum := C }).velocity.z < 0 ∧
      (frameStep [] { zeroMotionState with scrollAccum := C }).camPos.z < 0 := by
    intro C hC
    rw [frameStep_eq]
    dsimp only [zeroMotionState]
    rw [keyStep_nil]
    dsimp only
    rw [zero_add]
    have hcl := clamp_neg hC hMpos
    have hlerp : lerp 0 (clamp C (-MAX_VELOCITY) MAX_VELOCITY) 0.16
        = clamp C (-MAX_VELOCITY) MAX_VELOCITY * 0.16 := by
      unfold lerp; ring
    rw [hlerp]
    refine ⟨by nlinarith, by nlinarith, ?_⟩
    rw [zero_add]
    nlinarith
  refine ⟨?_, ?_, hposState A hA, hnegState B hB, ?_, ?_⟩
  · unfold onTouchMovePinch
    rw [if_pos hInPos]
    nlinarith
  · unfold onTouchMovePinch
    rw [if_pos hOutPos]
    nlinarith
  · rw [frameStep_eq]
    dsimp only [zeroMotionState]
    rw [keyStep_z]
    have hz : (((⟨0, 0, 0⟩ : Vec3).z + (if "w" ∈ ["s"] ∨ "arrowup" ∈ ["s"] then -speed else 0)
        + (if "s" ∈ ["s"] ∨ "arrowdown" ∈ ["s"] then speed else 0)
        + (if " " ∈ ["s"] then -(speed * 1.5) else 0)) + (0:ℝ)) = 0.18 := by
      simp +decide [speed]
    rw [hz]
    exact mul_pos (clamp_pos (by norm_num) hMpos) (by norm_num)
  · rw [frameStep_eq]
    dsimp only [zeroMotionState]
    rw [keyStep_z]
    have hz : (((⟨0, 0, 0⟩ : Vec3).z + (if "w" ∈ ["w"] ∨ "arrowup" ∈ ["w"] then -speed else 0)
        + (if "s" ∈ ["w"] ∨ "arrowdown" ∈ ["w"] then speed else 0)
        + (if " " ∈ ["w"] then -(speed * 1.5) else 0)) + (0:ℝ)) = -0.18 := by
      simp +decide [speed]
    rw [hz]
    have := clamp_neg (v := -0.18) (M := MAX_VELOCITY) (by norm_num) hMpos
    nlinarith

theorem pinch_direction_witness :
    ((0:ℝ) < onTouchMovePinch (getTouchDistance [((0:ℝ), (0:ℝ)), (100, 0)])
      (getTouchDistance [((0:ℝ), (0:ℝ)), (50, 0)]) 0 ∧
    onTouchMovePinch (getTouchDistance [((0:ℝ), (0:ℝ)), (50, 0)])
      (getTouchDistance [((0:ℝ), (0:ℝ)), (100, 0)]) 0 < 0 ∧
    (0 < (frameStep [] { zeroMotionState with scrollAccum := 0.3 }).targetVel.z ∧
     0 < (frameStep [] { zeroMotionState with scrollAccum := 0.3 }).velocity.z ∧
     0 < (frameStep [] { zeroMotionState with scrollAccum := 0.3 }).camPos.z) ∧
    ((frameStep [] { zeroMotionState with scrollAccum := -0.3 }).targetVel.z < 0 ∧
     (frameStep [] { zeroMotionState with scrollAccum := -0.3 }).velocity.z < 0 ∧
     (frameStep [] { zeroMotionState with scrollAccum := -0.3 }).camPos.z < 0) ∧
    0 < (frameStep ["s"] zeroMotionState).targetVel.z ∧
    (frameStep ["w"] zeroMotionState).targetVel.z < 0) :=
  pinch_direction [((0:ℝ), (0:ℝ)), (100, 0)] [((0:ℝ), (0:ℝ)), (50, 0)]
    [((0:ℝ), (0:ℝ)), (50, 0)] [((0:ℝ), (0:ℝ)), (100, 0)] 0 0.3 (-0.3)
    (by rw [touchDist_100]; norm_num)
    (by rw [touchDist_100, touchDist_50]; norm_num)
    (by rw [touchDist_50]; norm_num)
    (by rw [touchDist_100, touchDist_50]; norm_num)
    (by norm_num) (by norm_num)

/-! ### Bounded motion (claim C10) -/

theorem abs_clamp_le (v M : ℝ) (hM : 0 ≤ M) : |clamp v (-M) M| ≤ M := by
  unfold clamp
  rw [abs_le]
  exact ⟨le_max_left _ _, max_le (by linarith) (min_le_left _ _)⟩

theorem abs_lerp_le {v t M : ℝ} (hv : |v| ≤ M) (ht : |t| ≤ M) : |lerp v t 0.16| ≤ M := by
  rw [abs_le] at hv ht ⊢
  unfold lerp
  constructor <;> nlinarith [hv.1, hv.2, ht.1, ht.2]

theorem applyEvent_velocity (s : MotionState) (e : InputEvent) :
    (applyEvent s e).velocity = s.velocity := by
  cases e <;> rfl

theorem foldl_applyEvent_velocity (events : List InputEvent) (s : MotionState) :
    (events.foldl applyEvent s).velocity = s.velocity := by
  induction events generalizing s with
  | nil => rfl
  | cons e rest ih => rw [List.foldl_cons, ih, applyEvent_velocity]

theorem frameStep_velocity_le (keys : List String) (s : MotionState)
    (hx : |s.velocity.x| ≤ MAX_VELOCITY) (hy : |s.velocity.y| ≤ MAX_VELOCITY)
    (hz : |s.velocity.z| ≤ MAX_VELOCITY) :
    |(frameStep keys s).velocity.x| ≤ MAX_VELOCITY ∧
    |(frameStep keys s).velocity.y| ≤ MAX_VELOCITY ∧
    |(frameStep keys s).velocity.z| ≤ MAX_VELOCITY := by
  have hM : (0:ℝ) ≤ MAX_VELOCITY := by norm_num [MAX_VELOCITY]
  rw [frameStep_eq]
  exact ⟨abs_lerp_le hx (abs_clamp_le _ _ hM), abs_lerp_le hy (abs_clamp_le _ _ hM),
    abs_lerp_le hz (abs_clamp_le _ _ hM)⟩

theorem runFrames_velocity_le (inputs : List FrameInput) (s : MotionState)
    (hx : |s.velocity.x| ≤ MAX_VELOCITY) (hy : |s.velocity.y| ≤ MAX_VELOCITY)
    (hz : |s.velocity.z| ≤ MAX_VELOCITY) :
    |(runFrames inputs s).velocity.x| ≤ MAX_VELOCITY ∧
    |(runFrames inputs s).velocity.y| ≤ MAX_VELOCITY ∧
    |(runFrames inputs s).velocity.z| ≤ MAX_VELOCITY := by
  induction inputs generalizing s with
  | nil => exact ⟨hx, hy, hz⟩
  | cons i rest ih =>
    have hev := foldl_applyEvent_velocity i.events s
    have hstep := frameStep_velocity_le i.keys (i.events.foldl applyEvent s)
      (by rw [hev]; exact hx) (by rw [hev]; exact hy) (by rw [hev]; exact hz)
    exact ih (frameStep i.keys (i.events.foldl applyEvent s)) hstep.1 hstep.2.1 hstep.2.2

/-- C10: after every frame step each target-velocity axis has absolute
value at most `0.9 * MAX_VELOCITY = 2.88` (the `0.9` decay follows the
clamp to `[-3.2, 3.2]`); a velocity axis entering the step with absolute
value at most `3.2` leaves with at most `3.2` (the lerp toward a clamped
target is a convex combination), and then the camera position changes by at
most `3.2` per axis in that frame; consequently, starting from velocity
zero, the velocity bound holds after any sequence of frames with arbitrary
staged input events. -/
theorem bounded_motion (keys : List String) (s : MotionState)
    (hx : |s.velocity.x| ≤ MAX_VELOCITY) (hy : |s.velocity.y| ≤ MAX_VELOCITY)
    (hz : |s.velocity.z| ≤ MAX_VELOCITY) :
    (|(frameStep keys s).targetVel.x| ≤ 0.9 * MAX_VELOCITY ∧
     |(frameStep keys s).targetVel.y| ≤ 0.9 * MAX_VELOCITY ∧
     |(frameStep keys s).targetVel.z| ≤ 0.9 * MAX_VELOCITY) ∧
    (|(frameStep keys s).velocity.x| ≤ MAX_VELOCITY ∧
     |(frameStep keys s).velocity.y| ≤ MAX_VELOCITY ∧
     |(frameStep keys s).velocity.z| ≤ MAX_VELOCITY) ∧
    (|(frameStep keys s).camPos.x - s.camPos.x| ≤ MAX_VELOCITY ∧
     |(frameStep keys s).camPos.y - s.camPos.y| ≤ MAX_VELOCITY ∧
     |(frameStep keys s).camPos.z - s.camPos.z| ≤ MAX_VELOCITY) ∧
    (∀ (inputs : List FrameInput) (tv p : Vec3) (a : ℝ),
      |(runFrames inputs ⟨tv, ⟨0, 0, 0⟩, p, a⟩).velocity.x| ≤ MAX_VELOCITY ∧
      |(runFrames inputs ⟨tv, ⟨0, 0, 0⟩, p, a⟩).velocity.y| ≤ MAX_VELOCITY ∧
      |(runFrames inputs ⟨tv, ⟨0, 0, 0⟩, p, a⟩).velocity.z| ≤ MAX_VELOCITY) := by
  have hM : (0:ℝ) ≤ MAX_VELOCITY := by norm_num [MAX_VELOCITY]
  have hvel := frameStep_velocity_le keys s hx hy hz
  have hdecay : ∀ q : ℝ, |clamp q (-MAX_VELOCITY) MAX_VELOCITY * 0.9| ≤ 0.9 * MAX_VELOCITY := by
    intro q
    rw [abs_mul, abs_of_nonneg (by norm_num : (0:ℝ) ≤ 0.9)]
    have := abs_clamp_le q MAX_VELOCITY hM
    nlinarith [abs_nonneg (clamp q (-MAX_VELOCITY) MAX_VELOCITY)]
  refine ⟨?_, hvel, ?_, ?_⟩
  · rw [frameStep_eq]
    exact ⟨hdecay _, hdecay _, hdecay _⟩
  · have hdx : (frameStep keys s).camPos.x - s.camPos.x = (frameStep keys s).velocity.x := by
      rw [frameStep_eq]; dsimp only; ring
    have hdy : (frameStep keys s).camPos.y - s.camPos.y = (frameStep keys s).velocity.y := by
      rw [frameStep_eq]; dsimp only; ring
    have hdz : (frameStep keys s).camPos.z - s.camPos.z = (frameStep keys s).velocity.z := by
      rw [frameStep_eq]; dsimp only; ring
    rw [hdx, hdy, hdz]
    exact hvel
  · intro inputs tv p a
    exact runFrames_velocity_le inputs ⟨tv, ⟨0, 0, 0⟩, p, a⟩
      (by dsimp only; rw [abs_zero]; exact hM)
      (by dsimp only; rw [abs_zero]; exact hM)
      (by dsimp only; rw [abs_zero]; exact hM)

theorem bounded_motion_witness :
    (|(frameStep [] zeroMotionState).targetVel.x| ≤ 0.9 * MAX_VELOCITY ∧
     |(frameStep [] zeroMotionState).targetVel.y| ≤ 0.9 * MAX_VELOCITY ∧
     |(frameStep [] zeroMotionState).targetVel.z| ≤ 0.9 * MAX_VELOCITY) ∧
    (|(frameStep [] zeroMotionState).velocity.x| ≤ MAX_VELOCITY ∧
     |(frameStep [] zeroMotionState).velocity.y| ≤ MAX_VELOCITY ∧
     |(frameStep [] zeroMotionState).velocity.z| ≤ MAX_VELOCITY) ∧
    (|(frameStep [] zeroMotionState).camPos.x - zeroMotionState.camPos.x| ≤ MAX_VELOCITY ∧
     |(frameStep [] zeroMotionState).camPos.y - zeroMotionState.camPos.y| ≤ MAX_VELOCITY ∧
     |(frameStep [] zeroMotionState).camPos.z - zeroMotionState.camPos.z| ≤ MAX_VELOCITY) ∧
    (|(runFrames [⟨[InputEvent.wheel 100], ["w"]⟩]
        ⟨⟨0, 0, 0⟩, ⟨0, 0, 0⟩, ⟨0, 0, 0⟩, 0⟩).velocity.x| ≤ MAX_VELOCITY ∧
     |(runFrames [⟨[InputEvent.wheel 100], ["w"]⟩]
        ⟨⟨0, 0, 0⟩, ⟨0, 0, 0⟩, ⟨0, 0, 0⟩, 0⟩).velocity.y| ≤ MAX_VELOCITY ∧
     |(runFrames [⟨[InputEvent.wheel 100], ["w"]⟩]
        ⟨⟨0, 0, 0⟩, ⟨0, 0, 0⟩, ⟨0, 0, 0⟩, 0⟩).velocity.z| ≤ MAX_VELOCITY) := by
  have h := bounded_motion [] zeroMotionState
    (by norm_num [zeroMotionState, MAX_VELOCITY])
    (by norm_num [zeroMotionState, MAX_VELOCITY])
    (by norm_num [zeroMotionState, MAX_VELOCITY])
  exact ⟨h.1, h.2.1, h.2.2.1,
    h.2.2.2 [⟨[InputEvent.wheel 100], ["w"]⟩] ⟨0, 0, 0⟩ ⟨0, 0, 0⟩ 0⟩

/-! ## Chunk renderer and scene root (scene.tsx lines 274-304, 608-614) -/

/-- C9: with an empty media list the scene root renders nothing (`none`
before mounting the canvas), and the chunk renderer skips every placement —
the modulo-by-zero index resolves to no media item, so no out-of-range
index is dereferenced; every involved function of the embedding is total,
modelling that no exception is thrown. -/
theorem empty_media_renders_nothing :
    infiniteCanvasScene [] = none ∧
    (∀ cx cy cz : ℤ, chunkRender [] cx cy cz = []) ∧
    (∀ i : ℤ, resolveMediaItem [] i = none) := by
  have hres : ∀ i : ℤ, resolveMediaItem [] i = none := by
    intro i
    unfold resolveMediaItem
    simp
  refine ⟨?_, ?_, hres⟩
  · unfold infiniteCanvasScene
    simp
  · intro cx cy cz
    unfold chunkRender
    rw [List.filterMap_eq_nil_iff]
    intro plane _
    rw [hres plane.mediaIndex]
    rfl

end InfiniteCanvas
